import Mathlib

/-!
Verification of the big-store package-store core: a shallow embedding of its
catalog aggregation, cache, backend probing, installation pipeline and
search logic, with theorems settling the specification claims about them.

Modelling conventions: wall-clock time and durations are natural numbers;
Python dictionaries are association lists; a `subprocess` invocation is a
function from the command line to an outcome that either yields an exit code
or raises; threads are replaced by explicit parameters (the completion order
of concurrent fetches, the logical instant at which a cancellation flag
becomes visible).
-/

namespace BigStore

/-! ## String helpers (Python `str` operations, over `String.data`) -/

/-- Lower-casing as used by Python `str.lower()` on the repository's
ASCII-only match keywords; maps `Char.toLower` over the characters. -/
def lowerStr (s : String) : String := ⟨s.data.map Char.toLower⟩

/-- Does `hay` start with `needle`? Helper for the substring test. -/
def leadsWith : List Char → List Char → Bool
  | [], _ => true
  | _ :: _, [] => false
  | a :: as, b :: bs => a == b && leadsWith as bs

/-- Does `needle` occur contiguously inside `hay`? Python `needle in hay`. -/
def occursIn (needle : List Char) : List Char → Bool
  | [] => leadsWith needle []
  | c :: t => leadsWith needle (c :: t) || occursIn needle t

/-- Python `needle in hay` on strings. -/
def strIn (needle hay : String) : Bool := occursIn needle.data hay.data

/-- Python `''.join(lines)`. -/
def pyJoin (ls : List String) : String := ⟨(ls.map String.data).flatten⟩

/-- Python `s[-n:]`: the last `min n (length s)` characters of `s`. -/
def pyTail (s : String) (n : Nat) : String := ⟨s.data.drop (s.data.length - n)⟩

/-- Python whitespace as recognised by `str.strip()`. -/
def isPySpace (c : Char) : Bool :=
  c == ' ' || c == '\t' || c == '\n' || c == '\r' ||
    c == Char.ofNat 11 || c == Char.ofNat 12

/-- Python `s.strip()` (strip whitespace at both ends). -/
def pyStripWs (s : String) : String :=
  ⟨((s.data.dropWhile isPySpace).reverse.dropWhile isPySpace).reverse⟩

/-- Python `s.strip(chars)` for a character set `chars`. -/
def pyStripSet (chars : List Char) (s : String) : String :=
  ⟨((s.data.dropWhile chars.contains).reverse.dropWhile chars.contains).reverse⟩

/-- Python `line.split(sep, 1)`: `some (before, after)` around the first
occurrence of `sep`, `none` when `sep` does not occur. -/
def splitOnceAt (sep : Char) : List Char → Option (List Char × List Char)
  | [] => none
  | c :: rest =>
      if c == sep then some ([], rest)
      else (splitOnceAt sep rest).map (fun p => (c :: p.1, p.2))

/-- Python `s.split(sep)` on a single separator character. -/
def splitOnChar (sep : Char) : List Char → List (List Char)
  | [] => [[]]
  | c :: rest =>
      let r := splitOnChar sep rest
      if c == sep then [] :: r
      else (c :: r.headD []) :: r.tail

/-! ## Python `dict` as an association list (first component is the key) -/

/-- Python `d.get(key)`. -/
def dictGet {β : Type _} : List (String × β) → String → Option β
  | [], _ => none
  | (k, v) :: rest, key => if k = key then some v else dictGet rest key

/-- Python `d[key] = v`: replace in place or append a new binding. -/
def dictSet {β : Type _} : List (String × β) → String → β → List (String × β)
  | [], key, v => [(key, v)]
  | (k, w) :: rest, key, v =>
      if k = key then (key, v) :: rest else (k, w) :: dictSet rest key v

/-- Python `del d[key]` (removes the binding if present). -/
def dictDel {β : Type _} : List (String × β) → String → List (String × β)
  | [], _ => []
  | (k, w) :: rest, key => if k = key then rest else (k, w) :: dictDel rest key

/-! ## Data model (big_store/models.py) -/

/-- Embeds `models.AppInfo` with the same fields and defaults. -/
structure AppInfo where
  id : String
  name : String
  summary : String
  description : String := ""
  iconName : Option String := none
  version : Option String := none
  developer : Option String := none
  categories : List String := []
  source : String := "native"
  installed : Bool := false
  size : Option String := none
  rating : Option Rat := none
  downloads : Option Nat := none
  license : Option String := none
  homepage : Option String := none
  screenshots : List String := []
  featured : Bool := false
  updateAvailable : Bool := false
deriving DecidableEq

/-- Embeds `models.DistroType`. -/
inductive DistroType where
  | arch | manjaro | biglinux | endeavouros | garuda
  | fedora | ubuntu | debian | opensuse | gentoo | void | alpine
  | unknown
deriving DecidableEq

/-- Embeds `models.DistroInfo` with the same fields and defaults. -/
structure DistroInfo where
  name : String
  distroType : DistroType
  version : String
  codename : String := ""
  base : String := ""
  packageManager : String := ""
  supportsAur : Bool := false
  supportsFlatpak : Bool := true
  supportsSnap : Bool := true
deriving DecidableEq

/-! ## Subprocess model

A host is a function from the argument vector to the outcome of
`subprocess.run` / `subprocess.Popen`: either the process ran and exited with
a code (`subprocess.run` without `check=True` does not raise on a non-zero
exit), or the invocation raised (missing binary, timeout). -/

/-- Outcome of one subprocess invocation. -/
inductive ProcResult where
  | ok (exitCode : Nat)
  | err (msg : String)
deriving DecidableEq

/-- `result.returncode == 0` guarded by the surrounding try/except: false on
a raised invocation. -/
def runOk : ProcResult → Bool
  | .ok c => c == 0
  | .err _ => false

/-! ## Backend availability probing (data/app_fetcher.py `_detect_sources`,
managers/installation_manager.py `_install_aur`, managers/aur_manager.py) -/

/-- The AUR helper candidates, in the fixed priority order used by
`_detect_sources` and `_install_aur`. -/
def aurHelperCandidates : List String := ["paru", "yay", "pamac"]

/-- The native package-manager candidates probed by `_detect_sources`. -/
def nativePmCandidates : List String := ["pamac", "pacman", "apt", "dnf"]

/-- Embeds the `for helper in [...]` loops of
`UnifiedAppFetcher._detect_sources`: true once some candidate's
`which` probe exits zero; exceptions skip the candidate. -/
def whichLoop (ex : List String → ProcResult) : List String → Bool
  | [] => false
  | c :: rest => if runOk (ex ["which", c]) then true else whichLoop ex rest

/-- Embeds the `sources` mapping computed by
`UnifiedAppFetcher._detect_sources` (lines 27-78). -/
structure DetectedSources where
  flatpak : Bool
  snap : Bool
  aur : Bool
  native : Bool
  distrobox : Bool
deriving DecidableEq

/-- Embeds `UnifiedAppFetcher._detect_sources`: each probe is wrapped in
try/except, and availability is `returncode == 0`. -/
def detectSources (ex : List String → ProcResult) : DetectedSources :=
  { flatpak := runOk (ex ["flatpak", "--version"])
    snap := runOk (ex ["snap", "--version"])
    aur := whichLoop ex aurHelperCandidates
    native := whichLoop ex nativePmCandidates
    distrobox := runOk (ex ["distrobox", "version"]) }

/-- Embeds the helper-finding loop of `InstallationManager._install_aur`
(lines 250-257): `subprocess.run(["which", h], ...)` is executed and, because
its exit code is never inspected, the candidate is selected whenever the
invocation itself does not raise. -/
def aurFindHelper (ex : List String → ProcResult) : List String → Option String
  | [] => none
  | h :: rest =>
      match ex ["which", h] with
      | .ok _ => some h
      | .err _ => aurFindHelper ex rest

/-- Embeds `AURManager._detect_helper` (managers/aur_manager.py lines 27-38):
the first candidate whose `which` probe exits zero is returned. -/
def detectAurHelper (ex : List String → ProcResult) : List String → Option String
  | [] => none
  | h :: rest =>
      match ex ["which", h] with
      | .ok c => if c = 0 then some h else detectAurHelper ex rest
      | .err _ => detectAurHelper ex rest

/-- Host for the C5 analysis: `which paru` runs and exits 1 (paru absent),
`which yay` exits 0 (yay present), every other invocation raises. -/
def c5exec : List String → ProcResult := fun cmd =>
  if cmd = ["which", "paru"] then .ok 1
  else if cmd = ["which", "yay"] then .ok 0
  else .err "command invocation failed"

/-! ## Distribution detection (utils/package_manager (1).py) -/

/-- Embeds the `NAME`-substring dispatch chain of
`PackageManager._parse_os_release` (lines 72-129); yields
`(distro_type, base, package_manager, supports_aur)`. -/
def familyOfName (name : String) : DistroType × String × String × Bool :=
  if strIn "biglinux" name then (.biglinux, "arch", "pacman", true)
  else if strIn "manjaro" name then (.manjaro, "arch", "pacman", true)
  else if strIn "endeavouros" name then (.endeavouros, "arch", "pacman", true)
  else if strIn "garuda" name then (.garuda, "arch", "pacman", true)
  else if strIn "arch" name then (.arch, "arch", "pacman", true)
  else if strIn "fedora" name then (.fedora, "rhel", "dnf", false)
  else if strIn "ubuntu" name then (.ubuntu, "debian", "apt", false)
  else if strIn "debian" name then (.debian, "debian", "apt", false)
  else if strIn "opensuse" name || strIn "suse" name then (.opensuse, "suse", "zypper", false)
  else if strIn "gentoo" name then (.gentoo, "gentoo", "emerge", false)
  else if strIn "void" name then (.void, "void", "xbps", false)
  else if strIn "alpine" name then (.alpine, "alpine", "apk", false)
  else (.unknown, "", "", false)

/-- Embeds the key=value parsing of `_parse_os_release` (lines 61-66):
lines containing `=` are split once and the value stripped of quotes. -/
def osReleaseData (content : String) : List (String × String) :=
  (splitOnChar (Char.ofNat 10) content.data).foldl
    (fun d line =>
      match splitOnceAt (Char.ofNat 61) line with
      | none => d
      | some (k, v) =>
          dictSet d ⟨k⟩ (pyStripSet [Char.ofNat 34, Char.ofNat 39] ⟨v⟩))
    []

/-- Python `data.get(key, dflt)`. -/
def lookupD (d : List (String × String)) (k dflt : String) : String :=
  (dictGet d k).getD dflt

/-- Embeds `PackageManager._parse_os_release` (lines 59-139). -/
def parseOsRelease (content : String) : DistroInfo :=
  let data := osReleaseData content
  let nm := lowerStr (lookupD data "NAME" "Unknown")
  let fam := familyOfName nm
  { name := lookupD data "PRETTY_NAME" (lookupD data "NAME" "Unknown")
    distroType := fam.1
    version := lookupD data "VERSION_ID" ""
    codename := lookupD data "VERSION_CODENAME" ""
    base := fam.2.1
    packageManager := fam.2.2.1
    supportsAur := fam.2.2.2 }

/-- The probe table of `PackageManager._detect_via_package_manager`
(lines 143-148): `(command, base, package_manager, supports_aur)`. -/
def pmProbeOrder : List (String × String × String × Bool) :=
  [("pacman", "arch", "pacman", true),
   ("apt", "debian", "apt", false),
   ("dnf", "rhel", "dnf", false),
   ("zypper", "suse", "zypper", false)]

/-- Embeds `PackageManager._command_exists` (lines 162-167): runs
`which command` and returns true whenever that invocation itself does not
raise — the exit code of `which` is never inspected. -/
def commandExists (ex : List String → ProcResult) (c : String) : Bool :=
  match ex ["which", c] with
  | .ok _ => true
  | .err _ => false

/-- Embeds the loop of `PackageManager._detect_via_package_manager`
(lines 150-160). -/
def detectViaPM (ex : List String → ProcResult) :
    List (String × String × String × Bool) → Option DistroInfo
  | [] => none
  | (cmd, base, pm, aur) :: rest =>
      if commandExists ex cmd then
        some { name := "Auto-detected", distroType := .unknown, version := ""
               base := base, packageManager := pm, supportsAur := aur }
      else detectViaPM ex rest

/-- Embeds `PackageManager._detect_distribution` (lines 38-57):
`osRelease` is the content of `/etc/os-release` when the file exists. -/
def detectDistribution (osRelease : Option String)
    (ex : List String → ProcResult) : DistroInfo :=
  let fromFile := osRelease.map parseOsRelease
  let resolved : Option DistroInfo :=
    match fromFile with
    | some i => if i.distroType = .unknown then detectViaPM ex pmProbeOrder else some i
    | none => detectViaPM ex pmProbeOrder
  resolved.getD
    { name := "Unknown", distroType := .unknown, version := "", packageManager := "auto" }

/-- Host for the C9 analysis: `which pacman` runs and exits 1 (pacman
absent), `which apt` exits 0 (apt present), everything else raises. -/
def c9exec : List String → ProcResult := fun cmd =>
  if cmd = ["which", "pacman"] then .ok 1
  else if cmd = ["which", "apt"] then .ok 0
  else .err "command invocation failed"

/-! ## Catalog merge (utils/package_manager (1).py `refresh_cache` /
`get_all_apps`)

`refresh_cache` submits every manager's `get_apps` to a thread pool and
extends `self._cache` in `concurrent.futures.as_completed` order — that is,
in the completion order of the concurrent fetches; a future that raised is
skipped.  `get_all_apps` (cache-invalid path) runs the same accumulation
sequentially in manager order.  Both are the same fold over a list of
per-backend outcomes; only the order of that list differs. -/

/-- One accumulation step: `self._cache.extend(apps)` for a future that
produced `apps`, nothing for a future that raised. -/
def mergeStep (acc : List AppInfo) (r : Except String (List AppInfo)) : List AppInfo :=
  match r with
  | .ok apps => acc ++ apps
  | .error _ => acc

/-- Embeds `PackageManager.refresh_cache` (lines 197-220): the argument is
the per-backend fetch outcomes ordered by completion. -/
def refreshCacheMerge (resultsInCompletionOrder : List (Except String (List AppInfo))) :
    List AppInfo :=
  resultsInCompletionOrder.foldl mergeStep []

/-- Embeds `PackageManager.get_all_apps` (lines 222-232): the argument is
the per-backend `get_apps` outcomes in manager order. -/
def pmGetAllApps (managerResults : List (Except String (List AppInfo))) : List AppInfo :=
  managerResults.foldl mergeStep []

/-- The successful contribution of one fetch outcome. -/
def exceptOk : Except String (List AppInfo) → Option (List AppInfo)
  | .ok apps => some apps
  | .error _ => none

/-! ## Unified fetcher merge (data/app_fetcher.py `get_all_apps`) -/

/-- One entry of the curated `POPULAR_APPS` table, with the defaults used by
`UnifiedAppFetcher.get_all_apps` when reading it. -/
structure AppMeta where
  name : String
  summary : String
  developer : String := ""
  categories : List String := []
  downloads : Nat := 0
  rating : Rat := 0

/-- The environment `UnifiedAppFetcher.get_all_apps` reads: the available
sources, the curated metadata table, the per-source package-id table, the
installed-package caches and the icon resolver. -/
structure FetchCtx where
  availableSources : List String
  getMeta : String → Option AppMeta
  getPkgId : String → String → Option String
  installedIn : String → String → Bool
  iconFor : String → String → String → String

/-- The dedup key `f"{pkg_id}:{source}"` of `get_all_apps` (line 217). -/
def fingerprintKey (pkgId source : String) : String := pkgId ++ ":" ++ source

/-- The `AppInfo` construction of `get_all_apps` (lines 228-239). -/
def mkFetchedApp (ctx : FetchCtx) (m : AppMeta) (pid source : String) : AppInfo :=
  { id := pid
    name := m.name
    summary := m.summary
    iconName := some (ctx.iconFor pid m.name source)
    developer := some m.developer
    categories := m.categories
    source := source
    installed := ctx.installedIn pid source
    downloads := some m.downloads
    rating := some m.rating }

/-- The inner per-source step of `get_all_apps` (lines 210-240); the state is
`(seen_ids, apps)`. -/
def addFromSource (ctx : FetchCtx) (appKey : String) (m : AppMeta)
    (st : List String × List AppInfo) (source : String) : List String × List AppInfo :=
  match ctx.getPkgId appKey source with
  | none => st
  | some pid =>
      if fingerprintKey pid source ∈ st.1 then st
      else (fingerprintKey pid source :: st.1, st.2 ++ [mkFetchedApp ctx m pid source])

/-- The outer per-app-key step of `get_all_apps` (lines 200-240). -/
def addAppKey (ctx : FetchCtx) (st : List String × List AppInfo) (appKey : String) :
    List String × List AppInfo :=
  match ctx.getMeta appKey with
  | none => st
  | some m => ctx.availableSources.foldl (addFromSource ctx appKey m) st

/-- Embeds `UnifiedAppFetcher.get_all_apps` (lines 191-243). -/
def fetcherGetAllApps (ctx : FetchCtx) (appKeys : List String) : List AppInfo :=
  (appKeys.foldl (addAppKey ctx) ([], [])).2

/-- The fingerprint of a catalog record. -/
def appFingerprint (a : AppInfo) : String × String := (a.id, a.source)

/-- The dedup key of a catalog record. -/
def appKeyOf (a : AppInfo) : String := fingerprintKey a.id a.source

/-- Invariant carried through the `get_all_apps` folds: accumulated records
have pairwise-distinct dedup keys, and every accumulated key is in
`seen_ids`. -/
def fetchInv (st : List String × List AppInfo) : Prop :=
  (st.2.map appKeyOf).Nodup ∧ ∀ a ∈ st.2, appKeyOf a ∈ st.1

/-- Two distinct catalog records and a duplicated one, used as concrete
backend contributions. -/
def appA : AppInfo := { id := "a", name := "App A", summary := "first" }

/-- Second concrete record for the completion-order analysis. -/
def appB : AppInfo := { id := "b", name := "App B", summary := "second" }

/-! ## Installation pipeline (managers/installation_manager.py) -/

/-- Embeds `InstallStatus`. -/
inductive InstallStatus where
  | preparing | downloading | installing | completed | failed | cancelled
deriving DecidableEq

/-- Embeds `InstallProgress` with the same defaults. -/
structure InstallProgress where
  status : InstallStatus
  message : String
  percentage : Nat := 0
  details : String := ""
deriving DecidableEq

/-- The observable behaviour of the spawned process: the sequence of lines
read from its combined stdout/stderr stream and its exit code. -/
structure ProcRun where
  lines : List String
  exitCode : Nat
deriving DecidableEq

/-- Behaviour of the `subprocess.Popen`-based install attempt: the spawn (or
a read) raises, or the process runs to an observable `ProcRun`. -/
inductive ExecBehavior where
  | raises (msg : String)
  | runs (run : ProcRun)
deriving DecidableEq

/-- Is the shared `_cancel_requested` flag observed true at the check
performed before consuming line `i`?  `cancelAt = some k` means the flag is
set from logical instant `k` on; `none` means cancel is never requested. -/
def cancelSeen (cancelAt : Option Nat) (i : Nat) : Bool :=
  match cancelAt with
  | none => false
  | some k => decide (k ≤ i)

/-- The per-line keyword classification of `_install_flatpak`
(lines 111-127): `Downloading`/`fetching` and `Installing`/`installing`
drive the progress callbacks; `percentage` is the local variable that stays
0 throughout the loop, so the reported values are `min (0+5) 50` and
`min (0+10) 90`. -/
def flatpakLineEvent (line : String) : Option InstallProgress :=
  if strIn "Downloading" line || strIn "fetching" (lowerStr line) then
    some { status := .downloading, message := "Baixando pacote..."
           percentage := min (0 + 5) 50, details := pyStripWs line }
  else if strIn "Installing" line || strIn "installing" (lowerStr line) then
    some { status := .installing, message := "Instalando..."
           percentage := min (0 + 10) 90, details := pyStripWs line }
  else none

/-- Result of the streaming loop: cancelled mid-stream (the events delivered
so far), or ran to end-of-stream with the accumulated output lines. -/
inductive LoopExit where
  | cancelled (events : List InstallProgress)
  | finished (output : List String) (events : List InstallProgress)
deriving DecidableEq

/-- Embeds the `for line in process.stdout` loop of `_install_flatpak`
(lines 104-127): before consuming each line the shared cancel flag is
checked; on observation the process is terminated and the loop aborts. -/
def flatpakLoop (cancelAt : Option Nat) :
    List String → Nat → List String → List InstallProgress → LoopExit
  | [], _, outAcc, evAcc => .finished outAcc evAcc
  | l :: rest, i, outAcc, evAcc =>
      if cancelSeen cancelAt i then .cancelled evAcc
      else
        flatpakLoop cancelAt rest (i + 1) (outAcc ++ [l])
          (match flatpakLineEvent l with
           | some ev => evAcc ++ [ev]
           | none => evAcc)

/-- The observable outcome of one `_install_flatpak` call: the returned
`(success, message)` pair, whether `process.terminate()` was invoked, and
the progress events delivered to the callback. -/
structure RunOutcome where
  ok : Bool
  message : String
  terminated : Bool
  events : List InstallProgress
deriving DecidableEq

/-- The initial `PREPARING` callback of `_install_flatpak` (lines 84-89). -/
def prepEvent (appId : String) : InstallProgress :=
  { status := .preparing
    message := "Preparando instalação de " ++ appId ++ "..."
    percentage := 0 }

/-- Embeds `InstallationManager._install_flatpak` (lines 76-155): the
preparing callback, the streaming loop with cooperative cancellation, the
exit-code test, and the catch-all except clause returning `(False, str(e))`. -/
def installFlatpak (appId : String) (cancelAt : Option Nat)
    (behavior : ExecBehavior) : RunOutcome :=
  match behavior with
  | .raises e =>
      { ok := false, message := e, terminated := false
        events := [prepEvent appId, { status := .failed, message := "Erro: " ++ e }] }
  | .runs r =>
      match flatpakLoop cancelAt r.lines 0 [] [] with
      | .cancelled evs =>
          { ok := false, message := "Installation cancelled", terminated := true
            events := prepEvent appId :: evs }
      | .finished outLines evs =>
          let output := pyJoin outLines
          if r.exitCode = 0 then
            { ok := true, message := "Instalação concluída com sucesso", terminated := false
              events := prepEvent appId :: evs ++
                [{ status := .completed, message := "Instalação concluída!", percentage := 100 }] }
          else
            { ok := false, message := pyTail output 1000, terminated := false
              events := prepEvent appId :: evs ++
                [{ status := .failed, message := "Falha na instalação"
                   details := pyTail output 500 }] }

/-- Embeds the `InstallationManager` object state: its only mutable field is
the single `_cancel_requested` flag shared by every task (the module exposes
one global instance, `installation_manager`). -/
structure InstallationManager where
  cancelRequested : Bool
deriving DecidableEq

/-- Embeds `InstallationManager.__init__`. -/
def newInstallationManager : InstallationManager := { cancelRequested := false }

/-- Embeds the synchronous head of `install_package` (line 47):
`self._cancel_requested = False` before any work starts. -/
def installPackageEnter (m : InstallationManager) : InstallationManager :=
  { m with cancelRequested := false }

/-- Embeds `InstallationManager.cancel` (lines 72-74). -/
def requestCancel (m : InstallationManager) : InstallationManager :=
  { m with cancelRequested := true }

/-! ## Catalog mutation on operation completion
(managers/package_manager.py `install_app`/`uninstall_app`,
utils/package_manager (1).py `update_app`) -/

/-- Arguments of the completion callback `(success, message)`. -/
structure CompletionCall where
  ok : Bool
  message : String
deriving DecidableEq

/-- Embeds `PackageManager.install_app` (managers/package_manager.py lines
52-62): on success the record's `installed` flag is set; the backend result
is forwarded to the callback. -/
def installAppApply (app : AppInfo) (result : Bool × String) : AppInfo × CompletionCall :=
  ((if result.1 then { app with installed := true } else app), ⟨result.1, result.2⟩)

/-- Embeds `PackageManager.uninstall_app` (managers/package_manager.py lines
136-146). -/
def uninstallAppApply (app : AppInfo) (result : Bool × String) : AppInfo × CompletionCall :=
  ((if result.1 then { app with installed := false } else app), ⟨result.1, result.2⟩)

/-- Embeds `PackageManager.update_app` (utils/package_manager (1).py lines
300-320): a raised backend call reaches the except clause and reports
`(False, str(e))`; a successful update clears `update_available`. -/
def updateAppApply (app : AppInfo) (result : Except String (Bool × String)) :
    AppInfo × CompletionCall :=
  match result with
  | .error e => (app, ⟨false, e⟩)
  | .ok (s, msg) => ((if s then { app with updateAvailable := false } else app), ⟨s, msg⟩)

/-! ## TTL cache (utils/cache.py) -/

/-- Embeds `cache.CacheEntry`. -/
structure CacheEntry (α : Type _) where
  key : String
  data : α
  created : Nat
  expires : Nat
deriving DecidableEq

/-- Embeds `CacheEntry.is_expired` (line 25): `time.time() > self.expires`. -/
def isExpired {α : Type _} (now : Nat) (e : CacheEntry α) : Bool :=
  decide (e.expires < now)

/-- The in-memory `AppCache._cache` dictionary. -/
abbrev AppCache (α : Type _) := List (String × CacheEntry α)

/-- Embeds `AppCache.get` (lines 108-120): an expired entry is deleted and
treated as absent; the returned pair is `(value, cache after the call)`. -/
def cacheGet {α : Type _} (c : AppCache α) (now : Nat) (key : String) :
    Option α × AppCache α :=
  match dictGet c key with
  | none => (none, c)
  | some e => if isExpired now e then (none, dictDel c key) else (some e.data, c)

/-- Python `ttl or self._default_ttl` in `AppCache.set` (line 124): a `None`
or zero (falsy) ttl falls back to the default. -/
def effectiveTtl (ttl : Option Nat) (defaultTtl : Nat) : Nat :=
  match ttl with
  | none => defaultTtl
  | some n => if n = 0 then defaultTtl else n

/-- Embeds `AppCache.set` (lines 122-135): `expires = now + ttl`. -/
def cacheSet {α : Type _} (c : AppCache α) (now : Nat) (key : String) (data : α)
    (ttl : Option Nat) (defaultTtl : Nat) : AppCache α :=
  dictSet c key
    { key := key, data := data, created := now, expires := now + effectiveTtl ttl defaultTtl }

/-- A concrete expired cache state for the C7 witness. -/
def expiredCache : AppCache Nat :=
  [("all-apps", { key := "all-apps", data := 7, created := 0, expires := 5 })]

/-! ## Catalog search (utils/package_manager (1).py `search_apps`) -/

/-- The match condition of `search_apps` (lines 241-243): the lower-cased
query occurs in the lower-cased name, summary or description. -/
def matchesQuery (queryLower : String) (app : AppInfo) : Bool :=
  strIn queryLower (lowerStr app.name) || strIn queryLower (lowerStr app.summary) ||
    strIn queryLower (lowerStr app.description)

/-- The source filter of `search_apps` (lines 239-240): Python
`if sources and app.source not in sources: continue`, so `None` and the
empty list disable filtering. -/
def sourceAllowed : Option (List String) → AppInfo → Bool
  | none, _ => true
  | some ss, app => ss.isEmpty || ss.contains app.source

/-- Embeds `PackageManager.search_apps` (lines 234-245) applied to the
already-merged catalog. -/
def searchApps (catalog : List AppInfo) (query : String)
    (sources : Option (List String)) : List AppInfo :=
  catalog.filter (fun app => sourceAllowed sources app && matchesQuery (lowerStr query) app)

/-- The catalog record of the specification's search scenario. -/
def firefoxApp : AppInfo :=
  { id := "org.mozilla.firefox", name := "Firefox", summary := "Web browser"
    source := "flatpak" }

/-! ## Helper lemmas -/

theorem dictGet_dictSet {β : Type _} (c : List (String × β)) (key : String) (v : β) :
    dictGet (dictSet c key v) key = some v := by
  induction c with
  | nil => simp [dictSet, dictGet]
  | cons kv rest ih =>
      obtain ⟨k, w⟩ := kv
      by_cases h : k = key
      · simp [dictSet, dictGet, h]
      · simp [dictSet, dictGet, h, ih]

theorem foldl_mergeStep_eq (rs : List (Except String (List AppInfo))) :
    ∀ acc : List AppInfo, rs.foldl mergeStep acc = acc ++ (rs.filterMap exceptOk).flatten := by
  induction rs with
  | nil => intro acc; simp
  | cons r rest ih =>
      intro acc
      cases r with
      | ok apps => simp [mergeStep, exceptOk, List.filterMap_cons, ih, List.append_assoc]
      | error e => simp [mergeStep, exceptOk, List.filterMap_cons, ih]

theorem foldl_preserves {σ β : Type _} {P : σ → Prop} {f : σ → β → σ}
    (hf : ∀ s b, P s → P (f s b)) :
    ∀ (l : List β) (s : σ), P s → P (l.foldl f s) := by
  intro l
  induction l with
  | nil => intro s h; exact h
  | cons b rest ih => intro s h; exact ih (f s b) (hf s b h)

theorem appKeyOf_mkFetchedApp (ctx : FetchCtx) (m : AppMeta) (pid source : String) :
    appKeyOf (mkFetchedApp ctx m pid source) = fingerprintKey pid source := rfl

theorem addFromSource_inv (ctx : FetchCtx) (appKey : String) (m : AppMeta)
    (st : List String × List AppInfo) (h : fetchInv st) (source : String) :
    fetchInv (addFromSource ctx appKey m st source) := by
  obtain ⟨hnd, hmem⟩ := h
  unfold addFromSource
  rcases hpid : ctx.getPkgId appKey source with _ | pid
  · exact ⟨hnd, hmem⟩
  · by_cases hseen : fingerprintKey pid source ∈ st.1
    · simp only [hseen, if_true]
      exact ⟨hnd, hmem⟩
    · simp only [hseen, if_false]
      have hkey : fingerprintKey pid source ∉ st.2.map appKeyOf := by
        intro hk
        rcases List.mem_map.mp hk with ⟨a, ha, hka⟩
        exact hseen (hka ▸ hmem a ha)
      constructor
      · rw [List.map_append]
        refine List.Nodup.append hnd (List.nodup_singleton _) ?_
        rw [List.map_singleton, List.disjoint_singleton, appKeyOf_mkFetchedApp]
        exact hkey
      · intro a ha
        rcases List.mem_append.mp ha with h₁ | h₂
        · exact List.mem_cons_of_mem _ (hmem a h₁)
        · rw [List.mem_singleton.mp h₂, appKeyOf_mkFetchedApp]
          exact List.mem_cons_self _ _

theorem addAppKey_inv (ctx : FetchCtx) (st : List String × List AppInfo)
    (h : fetchInv st) (appKey : String) : fetchInv (addAppKey ctx st appKey) := by
  unfold addAppKey
  rcases hm : ctx.getMeta appKey with _ | m
  · exact h
  · exact foldl_preserves (fun s src hs => addFromSource_inv ctx appKey m s hs src)
      ctx.availableSources st h

/-! ## Claim theorems -/

/-- Claim C1, counterexample: with identical backend outputs (backend 1
yields `[appA]`, backend 2 yields `[appB]`), the merged list produced by
`refresh_cache` differs between the two possible completion orders, because
the cache is extended in `as_completed` order. -/
theorem refresh_merge_depends_on_completion_order :
    refreshCacheMerge [Except.ok [appA], Except.ok [appB]] ≠
      refreshCacheMerge [Except.ok [appB], Except.ok [appA]] := by decide

/-- Claim C1, amended: for a fixed set of backend outputs, the merged list
produced by `refresh_cache` is, up to permutation, independent of the
completion order of the concurrent fetches (the multiset of merged records
is deterministic); the order itself follows completion order. -/
theorem refresh_merge_multiset_invariant
    (rs₁ rs₂ : List (Except String (List AppInfo))) (h : rs₁.Perm rs₂) :
    (refreshCacheMerge rs₁).Perm (refreshCacheMerge rs₂) := by
  unfold refreshCacheMerge
  rw [foldl_mergeStep_eq, foldl_mergeStep_eq]
  simpa using (h.filterMap exceptOk).flatten

/-- Witness for the amended C1 theorem at concrete completion orders. -/
theorem refresh_merge_multiset_invariant_witness :
    (refreshCacheMerge [Except.ok [appA], Except.ok [appB]]).Perm
      (refreshCacheMerge [Except.ok [appB], Except.ok [appA]]) :=
  refresh_merge_multiset_invariant _ _
    (List.Perm.swap (Except.ok [appB]) (Except.ok [appA]) [])

/-- Claim C2: in the catalog merged by `UnifiedAppFetcher.get_all_apps`,
every fingerprint `(id, source)` appears at most once, for every combination
of inputs (available sources, metadata and package-id tables, installed
state): the `seen_ids` set keyed by `id:source` rejects duplicates. -/
theorem fetcher_fingerprints_unique (ctx : FetchCtx) (appKeys : List String) :
    ((fetcherGetAllApps ctx appKeys).map appFingerprint).Nodup := by
  have hinv : fetchInv (appKeys.foldl (addAppKey ctx) ([], [])) :=
    foldl_preserves (fun s k hs => addAppKey_inv ctx s hs k) appKeys ([], [])
      ⟨List.nodup_nil, by intro a ha; cases ha⟩
  obtain ⟨hnd, _⟩ := hinv
  unfold fetcherGetAllApps
  unfold List.Nodup at hnd ⊢
  have h1 := List.pairwise_map.mp hnd
  refine List.pairwise_map.mpr (h1.imp ?_)
  intro a b hne heq
  refine hne ?_
  have hid : a.id = b.id := congrArg Prod.fst heq
  have hsrc : a.source = b.source := congrArg Prod.snd heq
  simp [appKeyOf, fingerprintKey, hid, hsrc]

/-- Claim C2, counterexample for the `PackageManager.get_all_apps` merge
(utils/package_manager (1).py): it concatenates backend contributions with
no fingerprint deduplication, so a backend contributing the same record
twice yields a merged catalog with a repeated `(id, source)` pair. -/
theorem pm_get_all_apps_duplicate_fingerprints :
    ¬ ((pmGetAllApps [Except.ok [appA, appA]]).map appFingerprint).Nodup := by decide

theorem flatpakLineEvent_status (line : String) (ev : InstallProgress)
    (h : flatpakLineEvent line = some ev) :
    ev.status = InstallStatus.downloading ∨ ev.status = InstallStatus.installing := by
  unfold flatpakLineEvent at h
  split at h
  · cases h; left; rfl
  · split at h
    · cases h; right; rfl
    · cases h

theorem flatpakLoop_cons_eq (cancelAt : Option Nat) (l : String) (rest : List String)
    (i : Nat) (outAcc : List String) (evAcc : List InstallProgress) :
    flatpakLoop cancelAt (l :: rest) i outAcc evAcc =
      if cancelSeen cancelAt i then LoopExit.cancelled evAcc
      else flatpakLoop cancelAt rest (i + 1) (outAcc ++ [l])
        (match flatpakLineEvent l with
         | some ev => evAcc ++ [ev]
         | none => evAcc) := rfl

theorem flatpakLoop_cons_cancel (cancelAt : Option Nat) (l : String) (rest : List String)
    (i : Nat) (outAcc : List String) (evAcc : List InstallProgress)
    (hc : cancelSeen cancelAt i = true) :
    flatpakLoop cancelAt (l :: rest) i outAcc evAcc = LoopExit.cancelled evAcc := by
  rw [flatpakLoop_cons_eq]
  simp [hc]

theorem flatpakLoop_cons_none_ev (cancelAt : Option Nat) (l : String) (rest : List String)
    (i : Nat) (outAcc : List String) (evAcc : List InstallProgress)
    (hc : cancelSeen cancelAt i = false) (hev : flatpakLineEvent l = none) :
    flatpakLoop cancelAt (l :: rest) i outAcc evAcc =
      flatpakLoop cancelAt rest (i + 1) (outAcc ++ [l]) evAcc := by
  rw [flatpakLoop_cons_eq, hev]
  simp [hc]

theorem flatpakLoop_cons_some_ev (cancelAt : Option Nat) (l : String) (rest : List String)
    (i : Nat) (outAcc : List String) (evAcc : List InstallProgress) (ev : InstallProgress)
    (hc : cancelSeen cancelAt i = false) (hev : flatpakLineEvent l = some ev) :
    flatpakLoop cancelAt (l :: rest) i outAcc evAcc =
      flatpakLoop cancelAt rest (i + 1) (outAcc ++ [l]) (evAcc ++ [ev]) := by
  rw [flatpakLoop_cons_eq, hev]
  simp [hc]

theorem flatpakLoop_no_cancel (lines : List String) :
    ∀ (i : Nat) (outAcc : List String) (evAcc : List InstallProgress),
    ∃ evs, flatpakLoop none lines i outAcc evAcc = LoopExit.finished (outAcc ++ lines) evs := by
  induction lines with
  | nil => intro i outAcc evAcc; exact ⟨evAcc, by simp [flatpakLoop]⟩
  | cons l rest ih =>
      intro i outAcc evAcc
      rcases hev : flatpakLineEvent l with _ | ev
      · rcases ih (i + 1) (outAcc ++ [l]) evAcc with ⟨evs, hevs⟩
        refine ⟨evs, ?_⟩
        rw [flatpakLoop_cons_none_ev none l rest i outAcc evAcc rfl hev, hevs]
        simp
      · rcases ih (i + 1) (outAcc ++ [l]) (evAcc ++ [ev]) with ⟨evs, hevs⟩
        refine ⟨evs, ?_⟩
        rw [flatpakLoop_cons_some_ev none l rest i outAcc evAcc ev rfl hev, hevs]
        simp

theorem flatpakLoop_cancelled (k : Nat) :
    ∀ (lines : List String) (i : Nat) (outAcc : List String) (evAcc : List InstallProgress),
    i ≤ k → k < i + lines.length →
    (∀ ev ∈ evAcc, ev.status ≠ InstallStatus.completed) →
    ∃ evs, flatpakLoop (some k) lines i outAcc evAcc = LoopExit.cancelled evs ∧
      ∀ ev ∈ evs, ev.status ≠ InstallStatus.completed := by
  intro lines
  induction lines with
  | nil =>
      intro i outAcc evAcc hik hlt
      simp only [List.length_nil] at hlt
      omega
  | cons l rest ih =>
      intro i outAcc evAcc hik hlt hev
      by_cases hki : k ≤ i
      · have hc : cancelSeen (some k) i = true := by
          simp [cancelSeen, hki]
        exact ⟨evAcc, flatpakLoop_cons_cancel (some k) l rest i outAcc evAcc hc, hev⟩
      · have hc : cancelSeen (some k) i = false := by
          simp [cancelSeen, hki]
        have hik2 : i + 1 ≤ k := by omega
        have hlt2 : k < (i + 1) + rest.length := by
          simp only [List.length_cons] at hlt
          omega
        rcases hevl : flatpakLineEvent l with _ | ev
        · rcases ih (i + 1) (outAcc ++ [l]) evAcc hik2 hlt2 hev with ⟨evs, hrec, hevs⟩
          refine ⟨evs, ?_, hevs⟩
          rw [flatpakLoop_cons_none_ev (some k) l rest i outAcc evAcc hc hevl]
          exact hrec
        · have hev2 : ∀ e ∈ evAcc ++ [ev], e.status ≠ InstallStatus.completed := by
            intro e he
            rcases List.mem_append.mp he with h₁ | h₂
            · exact hev e h₁
            · rw [List.mem_singleton.mp h₂]
              rcases flatpakLineEvent_status l ev hevl with h | h <;> simp [h]
          rcases ih (i + 1) (outAcc ++ [l]) (evAcc ++ [ev]) hik2 hlt2 hev2 with ⟨evs, hrec, hevs⟩
          refine ⟨evs, ?_, hevs⟩
          rw [flatpakLoop_cons_some_ev (some k) l rest i outAcc evAcc ev hc hevl]
          exact hrec

theorem pyTail_length_le (s : String) (n : Nat) : (pyTail s n).length ≤ n := by
  show (s.data.drop (s.data.length - n)).length ≤ n
  rw [List.length_drop]
  omega

/-- Claim C3, counterexample: the cancellation flag is only consulted at the
per-line checks of the streaming loop.  If cancellation is requested (flag
visible from instant 0) but the process emits no further output line and
exits 0, `_install_flatpak` falls through to the exit-code test and reports
success with a `COMPLETED` event, and `process.terminate()` is never called. -/
theorem cancel_without_further_output_completes :
    (installFlatpak "x" (some 0) (ExecBehavior.runs { lines := [], exitCode := 0 })).ok
        = true ∧
    (installFlatpak "x" (some 0) (ExecBehavior.runs { lines := [], exitCode := 0 })).terminated
        = false ∧
    InstallStatus.completed ∈
      ((installFlatpak "x" (some 0)
          (ExecBehavior.runs { lines := [], exitCode := 0 })).events.map InstallProgress.status) := by
  refine ⟨rfl, rfl, ?_⟩
  decide

/-- Claim C3, amended: if the cancellation request becomes visible before
some line check of the streaming loop (the flag is set from instant `k` and
at least one line remains to be read, `k < lines.length`), then
`_install_flatpak` returns failure with message "Installation cancelled",
terminates the child process, and never reports a `COMPLETED` event. -/
theorem cancel_observed_yields_cancelled (appId : String) (k : Nat) (r : ProcRun)
    (hk : k < r.lines.length) :
    (installFlatpak appId (some k) (ExecBehavior.runs r)).ok = false ∧
    (installFlatpak appId (some k) (ExecBehavior.runs r)).message = "Installation cancelled" ∧
    (installFlatpak appId (some k) (ExecBehavior.runs r)).terminated = true ∧
    ∀ ev ∈ (installFlatpak appId (some k) (ExecBehavior.runs r)).events,
      ev.status ≠ InstallStatus.completed := by
  rcases flatpakLoop_cancelled k r.lines 0 [] [] (Nat.zero_le k) (by omega)
      (by intro ev hev; cases hev) with ⟨evs, heq, hevs⟩
  have hres : installFlatpak appId (some k) (ExecBehavior.runs r) =
      { ok := false, message := "Installation cancelled", terminated := true,
        events := prepEvent appId :: evs } := by
    simp only [installFlatpak]
    rw [heq]
  rw [hres]
  refine ⟨rfl, rfl, rfl, ?_⟩
  intro ev hev
  rcases List.mem_cons.mp hev with h₁ | h₂
  · rw [h₁]
    simp [prepEvent]
  · exact hevs ev h₂

/-- Witness for the amended C3 theorem: one pending output line, cancel
visible from instant 0. -/
theorem cancel_observed_yields_cancelled_witness :
    (installFlatpak "x" (some 0) (ExecBehavior.runs { lines := ["data"], exitCode := 0 })).ok
        = false ∧
    (installFlatpak "x" (some 0)
        (ExecBehavior.runs { lines := ["data"], exitCode := 0 })).message
        = "Installation cancelled" ∧
    (installFlatpak "x" (some 0)
        (ExecBehavior.runs { lines := ["data"], exitCode := 0 })).terminated = true ∧
    ∀ ev ∈ (installFlatpak "x" (some 0)
        (ExecBehavior.runs { lines := ["data"], exitCode := 0 })).events,
      ev.status ≠ InstallStatus.completed :=
  cancel_observed_yields_cancelled "x" 0 { lines := ["data"], exitCode := 0 } (by decide)

/-- Claim C4, counterexample: when the spawn raises (message "boom") the
call returns `Failed` with the exception text as diagnostic, which is not a
tail slice of the combined stdout/stderr (empty here): the claim ties the
diagnostic of the exception case to the output tail. -/
theorem exception_diagnostic_not_output_tail :
    (installFlatpak "x" none (ExecBehavior.raises "boom")).ok = false ∧
    (installFlatpak "x" none (ExecBehavior.raises "boom")).message = "boom" ∧
    pyTail (pyJoin []) 1000 = "" ∧
    (installFlatpak "x" none (ExecBehavior.raises "boom")).message ≠ pyTail (pyJoin []) 1000 := by
  refine ⟨rfl, rfl, rfl, ?_⟩
  decide

/-- Claim C4, amended: without cancellation, `_install_flatpak` reports
success if and only if the process exit code is zero; a non-zero exit yields
failure whose diagnostic is the last at-most-1000 characters of the combined
stdout/stderr; a raised exception yields failure whose diagnostic is the
exception message itself (not an output slice); no exception escapes (the
embedding is a total function). -/
theorem install_result_matches_exit_code (appId : String) (r : ProcRun) (e : String) :
    ((installFlatpak appId none (ExecBehavior.runs r)).ok = true ↔ r.exitCode = 0) ∧
    (r.exitCode ≠ 0 →
      (installFlatpak appId none (ExecBehavior.runs r)).message = pyTail (pyJoin r.lines) 1000 ∧
      (installFlatpak appId none (ExecBehavior.runs r)).message.length ≤ 1000) ∧
    (installFlatpak appId none (ExecBehavior.raises e)).ok = false ∧
    (installFlatpak appId none (ExecBehavior.raises e)).message = e := by
  rcases flatpakLoop_no_cancel r.lines 0 [] [] with ⟨evs, heq⟩
  have hrun : installFlatpak appId none (ExecBehavior.runs r) =
      (if r.exitCode = 0 then
        { ok := true, message := "Instalação concluída com sucesso", terminated := false,
          events := prepEvent appId :: evs ++
            [{ status := .completed, message := "Instalação concluída!", percentage := 100 }] }
      else
        { ok := false, message := pyTail (pyJoin r.lines) 1000, terminated := false,
          events := prepEvent appId :: evs ++
            [{ status := .failed, message := "Falha na instalação"
               details := pyTail (pyJoin r.lines) 500 }] }) := by
    simp only [installFlatpak]
    rw [heq]
    simp only [List.nil_append]
  by_cases hz : r.exitCode = 0
  · rw [hrun, if_pos hz]
    exact ⟨⟨fun _ => hz, fun _ => rfl⟩, fun hne => absurd hz hne, rfl, rfl⟩
  · rw [hrun, if_neg hz]
    refine ⟨?_, fun _ => ⟨rfl, pyTail_length_le _ _⟩, rfl, rfl⟩
    constructor
    · intro h
      exact absurd h (by simp)
    · intro h
      exact absurd h hz

/-- Witness for the amended C4 theorem: one output line, exit code 1. -/
theorem install_result_matches_exit_code_witness :
    (installFlatpak "x" none (ExecBehavior.runs { lines := ["error detail"], exitCode := 1 })).message
        = pyTail (pyJoin ["error detail"]) 1000 ∧
    (installFlatpak "x" none
        (ExecBehavior.runs { lines := ["error detail"], exitCode := 1 })).message.length ≤ 1000 :=
  (install_result_matches_exit_code "x" { lines := ["error detail"], exitCode := 1 } "e").2.1
    (by decide)

/-- Claim C5 (code bug): on a host where `which paru` runs and exits 1 (paru
absent) while `which yay` exits 0 (yay present), the helper loop of
`InstallationManager._install_aur` selects "paru" — the first candidate whose
`which` invocation merely did not raise — whereas the first helper that
actually resolves, as computed by `AURManager._detect_helper` and claimed by
the specification, is "yay".  The availability probes of `_detect_sources`
on the same host are shown for contrast: they do inspect the exit code. -/
theorem aur_helper_selection_ignores_exit_code :
    c5exec ["which", "paru"] = ProcResult.ok 1 ∧
    c5exec ["which", "yay"] = ProcResult.ok 0 ∧
    aurFindHelper c5exec aurHelperCandidates = some "paru" ∧
    detectAurHelper c5exec aurHelperCandidates = some "yay" ∧
    (detectSources c5exec).aur = true ∧
    (detectSources c5exec).flatpak = false := by
  decide

/-- Claim C6: a failed install or uninstall leaves the catalog record
unchanged and forwards the diagnostic text to the completion callback; a
successful install sets `installed := true` and a successful uninstall sets
`installed := false`, touching no other field; a successful update clears
`update_available`; a raised update backend call reports `(False, str(e))`
and leaves the record unchanged. -/
theorem operation_effects_on_record :
    (∀ (app : AppInfo) (msg : String),
      installAppApply app (false, msg) = (app, ⟨false, msg⟩)) ∧
    (∀ (app : AppInfo) (msg : String),
      installAppApply app (true, msg) = ({ app with installed := true }, ⟨true, msg⟩)) ∧
    (∀ (app : AppInfo) (msg : String),
      uninstallAppApply app (false, msg) = (app, ⟨false, msg⟩)) ∧
    (∀ (app : AppInfo) (msg : String),
      uninstallAppApply app (true, msg) = ({ app with installed := false }, ⟨true, msg⟩)) ∧
    (∀ (app : AppInfo) (msg : String),
      updateAppApply app (Except.ok (true, msg)) =
        ({ app with updateAvailable := false }, ⟨true, msg⟩)) ∧
    (∀ (app : AppInfo) (msg : String),
      updateAppApply app (Except.ok (false, msg)) = (app, ⟨false, msg⟩)) ∧
    (∀ (app : AppInfo) (e : String),
      updateAppApply app (Except.error e) = (app, ⟨false, e⟩)) :=
  ⟨fun _ _ => rfl, fun _ _ => rfl, fun _ _ => rfl, fun _ _ => rfl,
   fun _ _ => rfl, fun _ _ => rfl, fun _ _ => rfl⟩

/-- Claim C7: `set(key, value, ttl)` immediately followed by `get(key)`
returns `value` (for every cache state, key, value, ttl and default ttl); an
entry whose expiry lies strictly before the current time is reported absent
and evicted by `get`; and a value is only ever served from an entry whose
expiry has not passed, leaving the cache unchanged — an expired entry is
never served. -/
theorem cache_roundtrip_and_expiry (α : Type) :
    (∀ (c : AppCache α) (now : Nat) (key : String) (data : α) (ttl : Option Nat)
        (dflt : Nat),
      (cacheGet (cacheSet c now key data ttl dflt) now key).1 = some data) ∧
    (∀ (c : AppCache α) (now : Nat) (key : String) (e : CacheEntry α),
      dictGet c key = some e → e.expires < now →
      cacheGet c now key = (none, dictDel c key)) ∧
    (∀ (c : AppCache α) (now : Nat) (key : String) (d : α) (c₂ : AppCache α),
      cacheGet c now key = (some d, c₂) →
      ∃ e, dictGet c key = some e ∧ now ≤ e.expires ∧ e.data = d ∧ c₂ = c) := by
  refine ⟨?_, ?_, ?_⟩
  · intro c now key data ttl dflt
    simp only [cacheSet, cacheGet, dictGet_dictSet]
    have hexp : isExpired now
        ({ key := key, data := data, created := now,
           expires := now + effectiveTtl ttl dflt } : CacheEntry α) = false := by
      simp only [isExpired, decide_eq_false_iff_not]
      omega
    rw [hexp]
    simp
  · intro c now key e hget hexp
    have hx : isExpired now e = true := by
      simp only [isExpired, decide_eq_true_eq]
      omega
    unfold cacheGet
    rw [hget]
    simp [hx]
  · intro c now key d c₂ hres
    rcases hget : dictGet c key with _ | e
    · unfold cacheGet at hres
      rw [hget] at hres
      simp at hres
    · unfold cacheGet at hres
      rw [hget] at hres
      by_cases hexp : isExpired now e = true
      · simp [hexp] at hres
      · simp only [hexp, if_false, Bool.false_eq_true] at hres
        simp only [Prod.mk.injEq, Option.some.injEq] at hres
        refine ⟨e, rfl, ?_, hres.1, hres.2.symm⟩
        simp only [isExpired, decide_eq_true_eq] at hexp
        omega

/-- Witness for C7: a concrete cache whose only entry expired at instant 5
is reported absent and evicted when read at instant 6. -/
theorem cache_roundtrip_and_expiry_witness :
    cacheGet expiredCache 6 "all-apps" = (none, dictDel expiredCache "all-apps") :=
  (cache_roundtrip_and_expiry Nat).2.1 expiredCache 6 "all-apps"
    { key := "all-apps", data := 7, created := 0, expires := 5 } (by decide) (by decide)

/-- Claim C8: `search_apps` returns exactly the catalog records in which the
lower-cased query occurs as a substring of the lower-cased name, summary or
description, and two queries with the same lower-casing (in particular, two
queries differing only in letter case) return identical result lists. -/
theorem search_case_insensitive_membership :
    (∀ (catalog : List AppInfo) (q : String) (app : AppInfo),
      app ∈ searchApps catalog q none ↔
        app ∈ catalog ∧
          (strIn (lowerStr q) (lowerStr app.name) = true ∨
           strIn (lowerStr q) (lowerStr app.summary) = true ∨
           strIn (lowerStr q) (lowerStr app.description) = true)) ∧
    (∀ (catalog : List AppInfo) (srcs : Option (List String)) (q₁ q₂ : String),
      lowerStr q₁ = lowerStr q₂ →
      searchApps catalog q₁ srcs = searchApps catalog q₂ srcs) := by
  constructor
  · intro catalog q app
    simp [searchApps, List.mem_filter, sourceAllowed, matchesQuery, Bool.or_eq_true,
      or_assoc]
  · intro catalog srcs q₁ q₂ h
    unfold searchApps
    rw [h]

/-- Witness for C8: the specification's scenario — a one-record catalog with
name "Firefox"; the queries "firefox" and "FIREFOX" return the same result,
which contains that record. -/
theorem search_case_insensitive_membership_witness :
    searchApps [firefoxApp] "firefox" none = searchApps [firefoxApp] "FIREFOX" none ∧
    firefoxApp ∈ searchApps [firefoxApp] "firefox" none :=
  ⟨search_case_insensitive_membership.2 [firefoxApp] none "firefox" "FIREFOX" (by decide),
   (search_case_insensitive_membership.1 [firefoxApp] "firefox" firefoxApp).mpr (by decide)⟩

/-- Claim C9 (code bug): with the identification file absent, on a host
where `which pacman` runs but exits 1 (pacman absent) while `which apt`
exits 0 (apt present), `_detect_distribution` infers the arch family with
native tool pacman — because `_command_exists` never inspects the probe's
exit code — instead of the debian family of the first binary that actually
responds; when every probe raises, the inert unknown profile is returned
rather than an error. -/
theorem distro_fallback_ignores_exit_code :
    c9exec ["which", "pacman"] = ProcResult.ok 1 ∧
    c9exec ["which", "apt"] = ProcResult.ok 0 ∧
    (detectDistribution none c9exec).base = "arch" ∧
    (detectDistribution none c9exec).packageManager = "pacman" ∧
    detectDistribution none (fun _ => ProcResult.err "probe raised") =
      { name := "Unknown", distroType := DistroType.unknown, version := ""
        packageManager := "auto" } := by
  decide

/-- Claim C10: the installation manager state is exactly the one shared
`_cancel_requested` flag (every state equals the record rebuilt from its
flag, and the module exposes a single global instance); `install_package`
resets the flag to false before starting any work, `cancel()` sets it;
hence a pending cancel request followed by any `install_package` call
yields the fresh-manager state, and `cancel()` switches the single flag
that every in-flight task's per-line checks consult. -/
theorem single_shared_cancellation_flag :
    (∀ m : InstallationManager, (installPackageEnter m).cancelRequested = false) ∧
    (∀ m : InstallationManager, (requestCancel m).cancelRequested = true) ∧
    (∀ m : InstallationManager,
      installPackageEnter (requestCancel m) = newInstallationManager) ∧
    (∀ m : InstallationManager,
      requestCancel (installPackageEnter m) = requestCancel m) ∧
    (∀ m : InstallationManager, m = { cancelRequested := m.cancelRequested }) :=
  ⟨fun _ => rfl, fun _ => rfl, fun _ => rfl, fun _ => rfl, fun _ => rfl⟩

end BigStore
